import Mathlib

/-!
Verification of container-explorer (google/container-explorer) core algorithms
against its natural-language specification.

The definitions below are shallow embeddings of the Go source:
- the snapshot-chain resolver in the containerd explorer
  (snapshotStore.SnapshotKeys, snapshotStore.OverlayPath) and its older
  ctrmeta copy (ContainerParents, ContainerOverlayPaths);
- mount option-string construction in MountContainer (containerd and docker
  backends);
- the label filter IgnoreContainer and its use in ExportAllContainers;
- hostname derivation in convertToContainerExplorerContainer (containerd);
- ExposedPorts extraction in the docker backend;
- cgroup parsing (ReadCgroupEvents, GetTaskStatus, GetTaskPID);
- drift timestamp capture (GetFileInfo).

Bolt buckets are modelled as association lists; a missing bucket is a
failed lookup (the Go code receives a nil pointer there). Go loops whose
bound is data on an untrusted disk are embedded with explicit fuel, so that
divergence of the source loop corresponds to the walk returning fuelOut at
every fuel.
-/

namespace ContainerExplorer

/-! ## Snapshot-chain model (meta.db and metadata.db) -/

/-- A snapshot node bucket in meta.db at
v1/(namespace)/snapshots/(snapshotter)/(key): the two fields the resolver
reads are name and parent. -/
structure SnapshotNode where
  name : String
  parent : String
deriving DecidableEq, Repr

/-- The snapshot buckets of meta.db for one namespace and snapshotter,
as an association list from snapshot key to node bucket. A key absent from
the list is a nil bucket in Go. -/
abbrev MetaDB := List (String × SnapshotNode)

/-- The v1/snapshots buckets of metadata.db: snapshot key to the varint
value of its id field. A key absent from the list is a nil bucket. -/
abbrev SnapshotDB := List (String × Nat)

/-- Outcome of one run of a Go loop embedded with fuel. -/
inductive WalkOutcome where
  /-- The loop finished normally and produced this list. -/
  | ok (names : List String)
  /-- The function returned an error with this message. -/
  | err (msg : String)
  /-- The Go code dereferenced a nil bucket pointer (runtime panic). -/
  | panics
  /-- The fuel ran out before the loop finished: the unbounded Go loop has
  not terminated within this many iterations. -/
  | fuelOut
deriving DecidableEq, Repr

/-- The loop body of snapshotStore.SnapshotKeys: look up the snapshot key
bucket, fail with a dedicated error when it is nil, append the node name,
stop when the parent is empty, otherwise continue at the parent. There is
no visited set. -/
def SnapshotKeysLoop (db : MetaDB) : Nat → String → List String → WalkOutcome
  | 0, _, _ => .fuelOut
  | fuel + 1, ssk, acc =>
    match List.lookup ssk db with
    | none => .err "empty meta.db snapshotkey bucket"
    | some node =>
      let acc := acc ++ [node.name]
      if node.parent = "" then .ok acc
      else SnapshotKeysLoop db fuel node.parent acc

/-- snapshotStore.SnapshotKeys: walk the parent chain starting from the
container's snapshot key, collecting node names. -/
def SnapshotKeys (db : MetaDB) (snapshotKey : String) (fuel : Nat) : WalkOutcome :=
  SnapshotKeysLoop db fuel snapshotKey []

/-- The loop body of ctrmeta.ContainerParents: identical walk, but the
bucket returned by sstrbkt.Bucket is used without a nil check, so a missing
node is a nil-pointer dereference (panic), not an error. -/
def ContainerParentsLoop (db : MetaDB) : Nat → String → List String → WalkOutcome
  | 0, _, _ => .fuelOut
  | fuel + 1, sskey, acc =>
    match List.lookup sskey db with
    | none => .panics
    | some node =>
      let acc := acc ++ [node.name]
      if node.parent = "" then .ok acc
      else ContainerParentsLoop db fuel node.parent acc

/-- ctrmeta.ContainerParents: walk the parent chain from the container's
snapshot key. -/
def ContainerParents (db : MetaDB) (snapshotKey : String) (fuel : Nat) : WalkOutcome :=
  ContainerParentsLoop db fuel snapshotKey []

/-- A complete resolvable parent path: starting at this key, every node is
present in meta.db, parents link each node to the next, and the final node
has an empty parent. The list collects the node names in walk order. -/
inductive ParentPath (db : MetaDB) : String → List String → Prop
  | base {k : String} {n : SnapshotNode} :
      List.lookup k db = some n → n.parent = "" → ParentPath db k [n.name]
  | step {k : String} {n : SnapshotNode} {names : List String} :
      List.lookup k db = some n → n.parent ≠ "" →
      ParentPath db n.parent names → ParentPath db k (n.name :: names)

/-- getSnapshotID (containerd explorer): read the id field of the
metadata.db snapshot bucket; a nil bucket is a dedicated error. -/
def getSnapshotID (sdb : SnapshotDB) (snapshotkey : String) : Except String Nat :=
  match List.lookup snapshotkey sdb with
  | none => .error ("empty snapshotkey bucket " ++ snapshotkey)
  | some id => .ok id

/-- The snapshot layer directory root/snapshots/(id)/fs built with
filepath.Join and fmt.Sprintf in OverlayPath. -/
def fsPath (root : String) (id : Nat) : String :=
  root ++ "/snapshots/" ++ toString id ++ "/fs"

/-- One iteration of the OverlayPath lowerdir loop: resolve the layer id,
then append the layer directory to the colon-separated accumulator. -/
def overlayAppendStep (sdb : SnapshotDB) (root : String)
    (lowerdir ssk : String) : Except String String := do
  let id ← getSnapshotID sdb ssk
  let ldir := fsPath root id
  if lowerdir = "" then pure ldir
  else pure (lowerdir ++ ":" ++ ldir)

/-- The lowerdir computation loop of snapshotStore.OverlayPath over the
chain minus its head: each layer directory is appended to the
colon-separated accumulator (closest-to-upper first, base last). -/
def OverlayPathLowerdir (sdb : SnapshotDB) (root : String) (rest : List String) :
    Except String String :=
  rest.foldlM (overlayAppendStep sdb root) ""

/-- One iteration of the ctrmeta.ContainerOverlayPaths lowerdir loop: the
new layer directory is prepended; a missing metadata.db bucket is
dereferenced without a nil check by GetSnapshotID (panic, modelled as
none). -/
def containerPrependStep (sdb : SnapshotDB) (root : String)
    (lowerdir key : String) : Option String := do
  let id ← List.lookup key sdb
  let ldir := fsPath root id
  if lowerdir = "" then pure ldir
  else pure (ldir ++ ":" ++ lowerdir)

/-- The lowerdir computation loop of ctrmeta.ContainerOverlayPaths: same
chain traversal as OverlayPath, but prepending, so the emitted order is
base first. -/
def ContainerOverlayPathsLowerdir (sdb : SnapshotDB) (root : String)
    (rest : List String) : Option String :=
  rest.foldlM (containerPrependStep sdb root) ""

/-- Colon-separated join of a path list, as the loops above produce it. -/
def colonJoin : List String → String
  | [] => ""
  | [p] => p
  | p :: q :: ps => p ++ ":" ++ colonJoin (q :: ps)

/-- The metadata.db lookups that a chain traversal performs: the keys
resolve positionally to these numeric ids. -/
def keysHaveIds (sdb : SnapshotDB) : List String → List Nat → Prop
  | [], [] => True
  | k :: ks, i :: is => List.lookup k sdb = some i ∧ keysHaveIds sdb ks is
  | _, _ => False

/-- The containerd MountContainer tail after SnapshotKeys succeeded:
compute upperdir from the chain head id, compute lowerdir over the rest,
reject an empty lowerdir, and build the overlay mount option string
ro,lowerdir=(lowerdir):(upperdir). -/
def MountContainerOptsFromKeys (sdb : SnapshotDB) (root : String)
    (keys : List String) : Except String String :=
  match keys with
  | [] => .error "no snapshot keys"
  | k0 :: rest => do
    let upperdirID ← getSnapshotID sdb k0
    let upperdir := fsPath root upperdirID
    let lowerdir ← OverlayPathLowerdir sdb root rest
    if lowerdir = "" then .error "lowerdir is empty"
    else .ok ("ro,lowerdir=" ++ lowerdir ++ ":" ++ upperdir)

/-- The docker MountContainer option string: the upperdir is prepended to
the colon-separated lower list. -/
def dockerMountOpts (upperdir lowerdir : String) : String :=
  "ro,lowerdir=" ++ upperdir ++ ":" ++ lowerdir

/-! ## Go string primitives

Structural-recursion models of the strings package functions the embedded
code uses, over the character list of a string, so that every definition
evaluates inside the kernel. Every separator and pattern in the embedded
code is plain ASCII. -/

/-- strings.Split for a single-character separator (all separators used by
the code are single characters), on character lists. Always returns at
least one piece. -/
def splitOnChar (sep : Char) : List Char → List (List Char)
  | [] => [[]]
  | c :: cs =>
    match splitOnChar sep cs with
    | [] => [[]]
    | piece :: rest =>
      if c = sep then [] :: piece :: rest
      else (c :: piece) :: rest

/-- strings.Split for a one-character separator. -/
def strSplitOn (s : String) (sep : Char) : List String :=
  (splitOnChar sep s.data).map (fun l => ⟨l⟩)

/-- strings.HasPrefix. -/
def strStartsWith (s pre : String) : Bool :=
  pre.data.isPrefixOf s.data

/-- The ASCII white space set of strings.TrimSpace. -/
def isSpaceChar (c : Char) : Bool :=
  c = ' ' || c = '\t' || c = '\n' || c = '\r' ||
  c = (Char.ofNat 11) || c = (Char.ofNat 12)

/-- strings.TrimSpace. -/
def strTrim (s : String) : String :=
  ⟨((s.data.dropWhile isSpaceChar).reverse.dropWhile isSpaceChar).reverse⟩

/-- Replacement engine of strings.Replace with count -1: scan left to
right, replacing each occurrence of the non-empty pattern and resuming
after it. The fuel is the input length, which each step consumes. -/
def replaceCore (pat rep : List Char) : Nat → List Char → List Char
  | 0, s => s
  | fuel + 1, s =>
    match s with
    | [] => []
    | c :: cs =>
      if pat.isPrefixOf s then rep ++ replaceCore pat rep fuel (s.drop pat.length)
      else c :: replaceCore pat rep fuel cs

/-- strings.Replace(s, pat, rep, -1): replace every occurrence; an empty
pattern leaves the string unchanged in the uses the code makes. -/
def strReplace (s pat rep : String) : String :=
  if pat.data.isEmpty then s
  else ⟨replaceCore pat.data rep.data s.data.length s.data⟩

/-- The first path after the equal sign of an overlay option string. -/
def firstPathAfterEq (opts : String) : String :=
  (strSplitOn ((strSplitOn opts '=').getD 1 "") ':').headD ""

/-! ## Label filter (utils.IgnoreContainer, ExportAllContainers) -/

/-- utils.IgnoreContainer: scan the filter pairs; a pair whose key is
present among the container labels with an equal value sets ignore to true
and breaks; a missing label key moves on to the next pair. Labels and the
filter are association lists with unique keys (Go maps). -/
def IgnoreContainer (labels filter : List (String × String)) : Bool :=
  filter.any fun kv =>
    match List.lookup kv.fst labels with
    | none => false
    | some containerLabel => containerLabel = kv.snd

/-- The spec sentence as a predicate: every filter pair has a matching
container label (a missing key fails the pair). Written from the spec words
for comparison with IgnoreContainer. -/
def allFilterPairsMatch (labels filter : List (String × String)) : Bool :=
  filter.all fun kv => List.lookup kv.fst labels = some kv.snd

/-- The per-container guard of ExportAllContainers (docker copy in the
containerd.go concatenation, lines 721-739): a container is processed
unless it is a support container being skipped, and unless IgnoreContainer
returns true for the filter. -/
def exportAllIncluded (supportContainer exportSupportContainers : Bool)
    (labels filter : List (String × String)) : Bool :=
  (exportSupportContainers || !supportContainer) && !(IgnoreContainer labels filter)

/-! ## Hostname derivation (containerd convertToContainerExplorerContainer) -/

/-- The hostname branch of convertToContainerExplorerContainer in the
containerd explorer: when the OCI spec blob is present, take spec.hostname
when non-empty, otherwise the first process environment entry beginning
with HOSTNAME= contributes the text between the first and second equal
signs, trimmed; with no spec the hostname stays empty. Container labels
are not consulted. -/
def deriveHostname (specPresent : Bool) (specHostname : String)
    (env : List String) : String :=
  if specPresent then
    if specHostname ≠ "" then specHostname
    else
      match env.find? (fun kv => strStartsWith kv "HOSTNAME=") with
      | some kv => strTrim ((strSplitOn kv '=').getD 1 "")
      | none => ""
  else ""

/-- The spec sentence as a function: first non-empty among the
io.kubernetes.pod.name label, spec.hostname, and the HOSTNAME= environment
entry. Written from the spec words for comparison with deriveHostname. -/
def specClaimHostname (labels : List (String × String)) (specHostname : String)
    (env : List String) : String :=
  let podName := (List.lookup "io.kubernetes.pod.name" labels).getD ""
  if podName ≠ "" then podName
  else if specHostname ≠ "" then specHostname
  else
    match env.find? (fun kv => strStartsWith kv "HOSTNAME=") with
    | some kv => strTrim ((strSplitOn kv '=').getD 1 "")
    | none => ""

/-! ## ExposedPorts (docker convertToContainerExplorerContainer) -/

/-- The ExposedPorts loop of the docker backend: range over the Go map
config.Config.ExposedPorts appending each key. Go map range order is
unspecified and randomized per run, so the iteration order is an input: any
permutation of the map's key set is a possible run. -/
def dockerExposedPorts (iterationOrder : List String) : List String :=
  iterationOrder.foldl (fun acc k => acc ++ [k]) []

/-! ## Go string helpers for cgroup parsing -/

/-- Whether pat occurs as a contiguous run inside s (list form). -/
def charsContain (s pat : List Char) : Bool :=
  match s with
  | [] => pat.isEmpty
  | _ :: t => pat.isPrefixOf s || charsContain t pat

/-- strings.Contains. -/
def strContains (s pat : String) : Bool :=
  charsContain s.data pat.data

/-- strconv.Atoi on the values this code feeds it: an optional sign
followed by at least one digit parses to the signed decimal value,
anything else is an error (none). Int64 overflow is out of scope. -/
def goAtoi (s : String) : Option Int :=
  match s.data with
  | [] => none
  | c :: cs =>
    let signDigits : Int × List Char :=
      if c = '-' then (-1, cs)
      else if c = '+' then (1, cs)
      else (1, c :: cs)
    if signDigits.snd ≠ [] ∧ signDigits.snd.all Char.isDigit then
      some (signDigits.fst *
        signDigits.snd.foldl (fun n d => 10 * n + ((d.toNat : Int) - 48)) 0)
    else none

/-- strings.Split(data, newline)[0]: everything before the first newline,
or the whole string when it has none. -/
def firstLine (s : String) : String :=
  (strSplitOn s '\n').headD ""

/-! ## Runtime-state reconstructor (explorers/runtime.go) -/

/-- ReadCgroupEvents: scan every line of cgroup.events; a line containing
the literal text populated-then-space has that text removed everywhere,
the remainder trimmed and parsed, a parse error giving -1; same for
frozen; both values start at -1 and the last matching line wins. -/
def ReadCgroupEvents (content : String) : Int × Int :=
  (strSplitOn content '\n').foldl
    (fun pf line =>
      let p :=
        if strContains line "populated " then
          ((goAtoi (strTrim (strReplace line "populated " ""))).getD (-1))
        else pf.fst
      let f :=
        if strContains line "frozen " then
          ((goAtoi (strTrim (strReplace line "frozen " ""))).getD (-1))
        else pf.snd
      (p, f))
    (-1, -1)

/-- The status mapping of GetTaskStatus over the parsed populated and
frozen values. -/
def taskStatusOf (populated frozen : Int) : String :=
  if populated = 0 ∧ frozen = 0 then "STOPPED"
  else if populated = 1 ∧ frozen = 0 then "RUNNING"
  else if populated = 1 ∧ frozen = 1 then "PAUSED"
  else "UNKNOWN"

/-- GetTaskStatus on a readable cgroup.events file: parse then map. -/
def GetTaskStatus (content : String) : String :=
  let pf := ReadCgroupEvents content
  taskStatusOf pf.fst pf.snd

/-- GetTaskPID: none models a cgroup.procs file that is missing or
unreadable (PathExists false or a read error), giving -1; otherwise the
first line is parsed with Atoi, -1 on a parse error. -/
def GetTaskPID (content : Option String) : Int :=
  match content with
  | none => -1
  | some data =>
    match goAtoi (firstLine data) with
    | none => -1
    | some pid => pid

/-! ## Drift timestamp capture (explorers/fileinfo.go GetFileInfo) -/

/-- A Unix timespec as carried by syscall.Stat_t. -/
structure Timespec where
  sec : Int
  nsec : Int
deriving DecidableEq, Repr

/-- The fields of syscall.Stat_t read by GetFileInfo. Linux Stat_t carries
access, modification and change times and no birth time. -/
structure StatT where
  atim : Timespec
  mtim : Timespec
  ctim : Timespec
deriving DecidableEq, Repr

/-- The four timestamps of a drift FileInfo record. -/
structure DriftTimes where
  fileModified : Timespec
  fileAccessed : Timespec
  fileChanged : Timespec
  fileBirth : Timespec
deriving DecidableEq, Repr

/-- The timestamp assignments of GetFileInfo: FileModified from
info.ModTime, FileAccessed from Atim, FileChanged from Mtim.Sec paired
with Ctim.Nsec, FileBirth from Ctim. -/
def GetFileInfoTimes (modTime : Timespec) (stat : StatT) : DriftTimes :=
  { fileModified := modTime
    fileAccessed := ⟨stat.atim.sec, stat.atim.nsec⟩
    fileChanged := ⟨stat.mtim.sec, stat.ctim.nsec⟩
    fileBirth := ⟨stat.ctim.sec, stat.ctim.nsec⟩ }

/-! ## Concrete scenario data -/

/-- A two-node cyclic parent chain in meta.db: key a has parent b and key
b has parent a. -/
def cycleDB : MetaDB := [("a", ⟨"name-a", "b"⟩), ("b", ⟨"name-b", "a"⟩)]

/-- The acyclic three-layer chain of spec scenario S2 in meta.db. -/
def chainDB : MetaDB :=
  [("sha256:aaa", ⟨"sha256:aaa", "sha256:bbb"⟩),
   ("sha256:bbb", ⟨"sha256:bbb", "sha256:ccc"⟩),
   ("sha256:ccc", ⟨"sha256:ccc", ""⟩)]

/-- A chain whose parent pointer dangles: the parent of sha256:aaa has no
node bucket in meta.db. -/
def danglingDB : MetaDB := [("sha256:aaa", ⟨"sha256:aaa", "sha256:missing"⟩)]

/-- The metadata.db ids of scenario S2: aaa has id 42, bbb 17, ccc 3. -/
def s2sdb : SnapshotDB := [("sha256:aaa", 42), ("sha256:bbb", 17), ("sha256:ccc", 3)]

/-- The snapshot root of scenario S2. -/
def s2root : String := "/var/lib/containerd/io.containerd.snapshotter.v1.overlayfs"

/-! ## Lemmas about the snapshot-chain walks -/

/-- Both walk loops finish and return the accumulated names when the key
starts a complete parent path and the fuel covers its length. -/
lemma walkLoops_ok_of_parentPath {db : MetaDB} {k : String} {names : List String}
    (h : ParentPath db k names) :
    ∀ (acc : List String) (fuel : Nat), names.length ≤ fuel →
      SnapshotKeysLoop db fuel k acc = .ok (acc ++ names) ∧
      ContainerParentsLoop db fuel k acc = .ok (acc ++ names) := by
  induction h with
  | @base k n hl hp =>
    intro acc fuel hf
    obtain ⟨fuel, rfl⟩ : ∃ m, fuel = m + 1 := by
      cases fuel with
      | zero => simp at hf
      | succ m => exact ⟨m, rfl⟩
    constructor <;> simp [SnapshotKeysLoop, ContainerParentsLoop, hl, hp]
  | @step k n names hl hp hpath ih =>
    intro acc fuel hf
    obtain ⟨fuel, rfl⟩ : ∃ m, fuel = m + 1 := by
      cases fuel with
      | zero => simp at hf
      | succ m => exact ⟨m, rfl⟩
    have hf' : names.length ≤ fuel := by
      simpa using Nat.lt_succ_iff.mp (Nat.lt_succ_of_le (by simpa using hf))
    obtain ⟨h1, h2⟩ := ih (acc ++ [n.name]) fuel hf'
    constructor <;> simp [SnapshotKeysLoop, ContainerParentsLoop, hl, hp, h1, h2]

/-- On the cyclic two-node chain both walk loops are still running at
every fuel, from either key of the cycle. -/
lemma cycleDB_walk_fuelOut :
    ∀ (fuel : Nat) (key : String), (key = "a" ∨ key = "b") → ∀ acc,
      SnapshotKeysLoop cycleDB fuel key acc = .fuelOut ∧
      ContainerParentsLoop cycleDB fuel key acc = .fuelOut := by
  intro fuel
  induction fuel with
  | zero => intro key hk acc; exact ⟨rfl, rfl⟩
  | succ m ih =>
    intro key hk acc
    have la : List.lookup "a" cycleDB = some ⟨"name-a", "b"⟩ := by rfl
    have lb : List.lookup "b" cycleDB = some ⟨"name-b", "a"⟩ := by rfl
    rcases hk with rfl | rfl
    · obtain ⟨h1, h2⟩ := ih "b" (Or.inr rfl) (acc ++ ["name-a"])
      constructor <;>
        simp [SnapshotKeysLoop, ContainerParentsLoop, la, h1, h2]
    · obtain ⟨h1, h2⟩ := ih "a" (Or.inl rfl) (acc ++ ["name-b"])
      constructor <;>
        simp [SnapshotKeysLoop, ContainerParentsLoop, lb, h1, h2]

/-! ## Claim theorems -/

/-- C1 (amended): the resolvers keep no visited set and produce no cycle
error; what holds is the acyclic half of the claim: whenever the
container's snapshot key starts a complete parent path through meta.db
ending at a node with empty parent, both snapshotStore.SnapshotKeys and
ctrmeta.ContainerParents terminate within fuel covering the chain length
and return exactly the chain of node names from the container's snapshot
key down to the base layer. On a cyclic chain neither resolver terminates
(see the counterexample theorem). -/
theorem snapshot_chain_acyclic_resolves {db : MetaDB} {key : String}
    {names : List String} (h : ParentPath db key names) {fuel : Nat}
    (hf : names.length ≤ fuel) :
    SnapshotKeys db key fuel = .ok names ∧
    ContainerParents db key fuel = .ok names := by
  have h2 := walkLoops_ok_of_parentPath h [] fuel hf
  simpa [SnapshotKeys, ContainerParents] using h2

/-- Witness for C1: the S2 chain aaa to bbb to ccc resolves to its three
names with fuel 3. -/
theorem snapshot_chain_acyclic_resolves_witness :
    SnapshotKeys chainDB "sha256:aaa" 3 =
      .ok ["sha256:aaa", "sha256:bbb", "sha256:ccc"] ∧
    ContainerParents chainDB "sha256:aaa" 3 =
      .ok ["sha256:aaa", "sha256:bbb", "sha256:ccc"] := by
  exact snapshot_chain_acyclic_resolves
    (ParentPath.step
      (rfl :
        List.lookup "sha256:aaa" chainDB = some ⟨"sha256:aaa", "sha256:bbb"⟩)
      (by decide)
      (ParentPath.step
        (rfl :
          List.lookup "sha256:bbb" chainDB = some ⟨"sha256:bbb", "sha256:ccc"⟩)
        (by decide)
        (ParentPath.base
          (rfl :
            List.lookup "sha256:ccc" chainDB = some ⟨"sha256:ccc", ""⟩)
          rfl)))
    (by decide)

/-- Counterexample for C1: on the concrete cyclic chain cycleDB the claim
fails: resolution never terminates at any fuel, so it never fails with a
dedicated cycle error; the source loops of SnapshotKeys and
ContainerParents maintain no visited set. -/
theorem snapshot_chain_cycle_diverges :
    (∀ fuel, SnapshotKeys cycleDB "a" fuel = .fuelOut) ∧
    (∀ fuel, ContainerParents cycleDB "a" fuel = .fuelOut) :=
  ⟨fun fuel => (cycleDB_walk_fuelOut fuel "a" (Or.inl rfl) []).1,
   fun fuel => (cycleDB_walk_fuelOut fuel "a" (Or.inl rfl) []).2⟩

/-- C5 (amended): when the current key has no node bucket in meta.db, only
snapshotStore.SnapshotKeys checks the bucket for null and fails with its
dedicated missing-node error; ctrmeta.ContainerParents reads name and
parent from the nil bucket and crashes (nil-pointer dereference). -/
theorem missing_node_error_vs_panic {db : MetaDB} {key : String}
    (h : List.lookup key db = none) (fuel : Nat) :
    SnapshotKeys db key (fuel + 1) = .err "empty meta.db snapshotkey bucket" ∧
    ContainerParents db key (fuel + 1) = .panics := by
  constructor <;>
    simp [SnapshotKeys, ContainerParents, SnapshotKeysLoop, ContainerParentsLoop, h]

/-- Witness for C5: a key absent from the S2 chain database. -/
theorem missing_node_error_vs_panic_witness :
    SnapshotKeys chainDB "sha256:nope" 1 = .err "empty meta.db snapshotkey bucket" ∧
    ContainerParents chainDB "sha256:nope" 1 = .panics :=
  missing_node_error_vs_panic (rfl : List.lookup "sha256:nope" chainDB = none) 0

/-- Counterexample for C5: on the concrete dangling chain (the parent of
sha256:aaa has no node bucket) ctrmeta.ContainerParents crashes instead of
failing with a dedicated error, refuting the claim that every resolver
checks the bucket for null before reading it. -/
theorem dangling_parent_crashes :
    ContainerParents danglingDB "sha256:aaa" 5 = .panics ∧
    ∀ msg, ContainerParents danglingDB "sha256:aaa" 5 ≠ WalkOutcome.err msg := by
  refine ⟨rfl, fun msg h => ?_⟩
  rw [show ContainerParents danglingDB "sha256:aaa" 5 = .panics from rfl] at h
  exact WalkOutcome.noConfusion h

/-! ## Lemmas about the lowerdir computations -/

/-- A string with a non-empty right append component is non-empty. -/
lemma str_append_ne_empty_right {s t : String} (h : t ≠ "") : s ++ t ≠ "" := by
  intro h2
  apply h
  have h3 := congrArg String.data h2
  simp only [String.data_append] at h3
  rcases List.append_eq_nil.mp (by simpa using h3) with ⟨-, h5⟩
  cases t
  exact congrArg String.mk (by simpa using h5)

/-- Layer directories are never the empty string. -/
lemma fsPath_ne_empty (root : String) (id : Nat) : fsPath root id ≠ "" :=
  str_append_ne_empty_right (by decide)

/-- Unfolding colonJoin on two or more entries. -/
lemma colonJoin_cons_cons (a b : String) (l : List String) :
    colonJoin (a :: b :: l) = a ++ ":" ++ colonJoin (b :: l) := rfl

/-- Merging a colon inside the head entry. -/
lemma colonJoin_head_merge (a b : String) (l : List String) :
    colonJoin ((a ++ ":" ++ b) :: l) = a ++ ":" ++ colonJoin (b :: l) := by
  cases l with
  | nil => rfl
  | cons c cs => simp [colonJoin_cons_cons, String.append_assoc, colonJoin]

/-- Merging a colon inside the last entry. -/
lemma colonJoin_last_merge (l : List String) (a b : String) :
    colonJoin (l ++ [a ++ ":" ++ b]) = colonJoin (l ++ [a, b]) := by
  induction l with
  | nil => rfl
  | cons x xs ih =>
    cases xs with
    | nil => simp [colonJoin, String.append_assoc]
    | cons y ys =>
      simp only [List.cons_append, colonJoin_cons_cons]
      simp only [List.cons_append] at ih
      rw [ih]

/-- The OverlayPath fold from a non-empty accumulator appends the layer
directories of the resolved ids in traversal order. -/
lemma overlayFold_acc {sdb : SnapshotDB} {root : String} :
    ∀ {rest : List String} {ids : List Nat}, keysHaveIds sdb rest ids →
      ∀ acc, acc ≠ "" →
        List.foldlM (overlayAppendStep sdb root) acc rest =
          .ok (colonJoin (acc :: ids.map (fsPath root))) := by
  intro rest
  induction rest with
  | nil =>
    intro ids h acc hacc
    cases ids with
    | nil => simp [List.foldlM, colonJoin, pure, Except.pure]
    | cons i is => exact absurd h (by simp [keysHaveIds])
  | cons k ks ih =>
    intro ids h acc hacc
    cases ids with
    | nil => exact absurd h (by simp [keysHaveIds])
    | cons i is =>
      obtain ⟨hk, hrest⟩ := h
      have step : overlayAppendStep sdb root acc k = .ok (acc ++ ":" ++ fsPath root i) := by
        simp [overlayAppendStep, getSnapshotID, hk, hacc]
      rw [List.foldlM_cons, step]
      show List.foldlM (overlayAppendStep sdb root) (acc ++ ":" ++ fsPath root i) ks = _
      rw [ih hrest _ (str_append_ne_empty_right (fsPath_ne_empty root i))]
      rw [List.map_cons, colonJoin_head_merge, colonJoin_cons_cons]

/-- The ContainerOverlayPaths fold from a non-empty accumulator prepends
the layer directories, leaving the accumulator last. -/
lemma containerFold_acc {sdb : SnapshotDB} {root : String} :
    ∀ {rest : List String} {ids : List Nat}, keysHaveIds sdb rest ids →
      ∀ acc, acc ≠ "" →
        List.foldlM (containerPrependStep sdb root) acc rest =
          some (colonJoin ((ids.map (fsPath root)).reverse ++ [acc])) := by
  intro rest
  induction rest with
  | nil =>
    intro ids h acc hacc
    cases ids with
    | nil => simp [List.foldlM, colonJoin, pure]
    | cons i is => exact absurd h (by simp [keysHaveIds])
  | cons k ks ih =>
    intro ids h acc hacc
    cases ids with
    | nil => exact absurd h (by simp [keysHaveIds])
    | cons i is =>
      obtain ⟨hk, hrest⟩ := h
      have step : containerPrependStep sdb root acc k = some (fsPath root i ++ ":" ++ acc) := by
        simp [containerPrependStep, hk, hacc]
      rw [List.foldlM_cons, step]
      show List.foldlM (containerPrependStep sdb root) (fsPath root i ++ ":" ++ acc) ks = _
      rw [ih hrest _ (str_append_ne_empty_right (by simpa using hacc))]
      rw [List.map_cons, List.reverse_cons, colonJoin_last_merge]
      rw [List.append_assoc]
      rfl

/-- A string with a non-empty left append component is non-empty. -/
lemma str_append_ne_empty_left {s t : String} (h : s ≠ "") : s ++ t ≠ "" := by
  intro h2
  apply h
  have h3 := congrArg String.data h2
  simp only [String.data_append] at h3
  rcases List.append_eq_nil.mp (by simpa using h3) with ⟨h5, -⟩
  cases s
  exact congrArg String.mk (by simpa using h5)

/-- A colon join starting from a non-empty entry is non-empty. -/
lemma colonJoin_cons_ne_empty {p : String} {ps : List String} (h : p ≠ "") :
    colonJoin (p :: ps) ≠ "" := by
  cases ps with
  | nil => simpa [colonJoin] using h
  | cons q qs =>
    rw [colonJoin_cons_cons]
    exact str_append_ne_empty_left (str_append_ne_empty_left h)

/-- The OverlayPath lowerdir over a fully resolvable chain tail is the
colon join of the layer directories in traversal order. -/
lemma overlayPathLowerdir_eq {sdb : SnapshotDB} {root : String}
    {rest : List String} {ids : List Nat} (h : keysHaveIds sdb rest ids) :
    OverlayPathLowerdir sdb root rest = .ok (colonJoin (ids.map (fsPath root))) := by
  cases rest with
  | nil =>
    cases ids with
    | nil => rfl
    | cons i is => exact absurd h (by simp [keysHaveIds])
  | cons k ks =>
    cases ids with
    | nil => exact absurd h (by simp [keysHaveIds])
    | cons i is =>
      obtain ⟨hk, hrest⟩ := h
      have step : overlayAppendStep sdb root "" k = .ok (fsPath root i) := by
        simp [overlayAppendStep, getSnapshotID, hk]
      unfold OverlayPathLowerdir
      rw [List.foldlM_cons, step]
      show List.foldlM (overlayAppendStep sdb root) (fsPath root i) ks = _
      rw [overlayFold_acc hrest _ (fsPath_ne_empty root i), List.map_cons]

/-- The ContainerOverlayPaths lowerdir over a fully resolvable chain tail
is the colon join of the layer directories in reverse traversal order. -/
lemma containerOverlayPathsLowerdir_eq {sdb : SnapshotDB} {root : String}
    {rest : List String} {ids : List Nat} (h : keysHaveIds sdb rest ids) :
    ContainerOverlayPathsLowerdir sdb root rest =
      some (colonJoin ((ids.map (fsPath root)).reverse)) := by
  cases rest with
  | nil =>
    cases ids with
    | nil => rfl
    | cons i is => exact absurd h (by simp [keysHaveIds])
  | cons k ks =>
    cases ids with
    | nil => exact absurd h (by simp [keysHaveIds])
    | cons i is =>
      obtain ⟨hk, hrest⟩ := h
      have step : containerPrependStep sdb root "" k = some (fsPath root i) := by
        simp [containerPrependStep, hk]
      unfold ContainerOverlayPathsLowerdir
      rw [List.foldlM_cons, step]
      show List.foldlM (containerPrependStep sdb root) (fsPath root i) ks = _
      rw [containerFold_acc hrest _ (fsPath_ne_empty root i)]
      rw [List.map_cons, List.reverse_cons]

/-- C4 (amended): over a resolved chain whose tail keys carry ids in
metadata.db, snapshotStore.OverlayPath computes the lowerdir as the
colon-separated list of root/snapshots/(id)/fs in chain order, closest to
the upper first and base last, exactly as the claim states; but the
ctrmeta copy ContainerOverlayPaths emits the same list in the REVERSE
order, base layer first. -/
theorem lowerdir_order {sdb : SnapshotDB} {root : String}
    {rest : List String} {ids : List Nat} (h : keysHaveIds sdb rest ids) :
    OverlayPathLowerdir sdb root rest = .ok (colonJoin (ids.map (fsPath root))) ∧
    ContainerOverlayPathsLowerdir sdb root rest =
      some (colonJoin ((ids.map (fsPath root)).reverse)) :=
  ⟨overlayPathLowerdir_eq h, containerOverlayPathsLowerdir_eq h⟩

/-- Witness for C4 on the S2 chain: ids 17 then 3 for the tail. -/
theorem lowerdir_order_witness :
    OverlayPathLowerdir s2sdb s2root ["sha256:bbb", "sha256:ccc"] =
      .ok (fsPath s2root 17 ++ ":" ++ fsPath s2root 3) ∧
    ContainerOverlayPathsLowerdir s2sdb s2root ["sha256:bbb", "sha256:ccc"] =
      some (fsPath s2root 3 ++ ":" ++ fsPath s2root 17) := by
  exact lowerdir_order
    (show keysHaveIds s2sdb ["sha256:bbb", "sha256:ccc"] [17, 3] from
      ⟨rfl, rfl, trivial⟩)

/-- Counterexample for C4: on the S2 chain of the claim, the ctrmeta
resolver ContainerOverlayPaths emits snapshots/3/fs before
snapshots/17/fs — the base layer first — and not the claimed
snapshots/17/fs before snapshots/3/fs. -/
theorem lowerdir_order_counterexample :
    ContainerOverlayPathsLowerdir s2sdb s2root ["sha256:bbb", "sha256:ccc"] =
      some (fsPath s2root 3 ++ ":" ++ fsPath s2root 17) ∧
    fsPath s2root 3 ++ ":" ++ fsPath s2root 17 ≠
      fsPath s2root 17 ++ ":" ++ fsPath s2root 3 := by
  constructor
  · rfl
  · decide

/-- C2 (amended): only the docker backend prepends the upperdir, producing
ro,lowerdir=(upperdir):(lowerdir); the containerd MountContainer appends
the upperdir AFTER the colon-separated lower list, producing
ro,lowerdir=(lower list in chain order):(upperdir), so there the first
path after the equal sign is the first lower layer, not the upperdir. -/
theorem mount_opts_upperdir_position {sdb : SnapshotDB} {root k0 : String}
    {rest : List String} {id0 : Nat} {ids : List Nat}
    (h0 : List.lookup k0 sdb = some id0)
    (h : keysHaveIds sdb rest ids) (hne : rest ≠ []) :
    MountContainerOptsFromKeys sdb root (k0 :: rest) =
      .ok ("ro,lowerdir=" ++ colonJoin (ids.map (fsPath root)) ++ ":" ++ fsPath root id0) ∧
    ∀ upperdir lowerdir, dockerMountOpts upperdir lowerdir =
      "ro,lowerdir=" ++ upperdir ++ ":" ++ lowerdir := by
  refine ⟨?_, fun _ _ => rfl⟩
  cases rest with
  | nil => exact absurd rfl hne
  | cons k1 ks =>
    cases ids with
    | nil => exact absurd h (by simp [keysHaveIds])
    | cons i1 is =>
      have hlower : OverlayPathLowerdir sdb root (k1 :: ks) =
          .ok (colonJoin (((i1 :: is).map (fsPath root)))) :=
        overlayPathLowerdir_eq h
      have hjoin : colonJoin (((i1 :: is).map (fsPath root))) ≠ "" := by
        rw [List.map_cons]
        exact colonJoin_cons_ne_empty (fsPath_ne_empty root i1)
      show (getSnapshotID sdb k0 >>= fun upperdirID =>
        OverlayPathLowerdir sdb root (k1 :: ks) >>= fun lowerdir =>
          if lowerdir = "" then Except.error "lowerdir is empty"
          else Except.ok ("ro,lowerdir=" ++ lowerdir ++ ":" ++ fsPath root upperdirID)) = _
      rw [show getSnapshotID sdb k0 = .ok id0 from by simp [getSnapshotID, h0]]
      show (OverlayPathLowerdir sdb root (k1 :: ks) >>= fun lowerdir =>
        if lowerdir = "" then Except.error "lowerdir is empty"
        else Except.ok ("ro,lowerdir=" ++ lowerdir ++ ":" ++ fsPath root id0)) = _
      rw [hlower]
      show (if colonJoin (((i1 :: is).map (fsPath root))) = ""
        then Except.error "lowerdir is empty"
        else Except.ok ("ro,lowerdir=" ++ colonJoin (((i1 :: is).map (fsPath root))) ++ ":" ++
          fsPath root id0)) = _
      rw [if_neg hjoin]

/-- Witness for C2 on the S2 chain: the containerd option string ends with
the upperdir snapshots/42/fs and the docker format puts the upperdir
first. -/
theorem mount_opts_upperdir_position_witness :
    MountContainerOptsFromKeys s2sdb s2root ["sha256:aaa", "sha256:bbb", "sha256:ccc"] =
      .ok ("ro,lowerdir=" ++ (fsPath s2root 17 ++ ":" ++ fsPath s2root 3) ++ ":" ++
        fsPath s2root 42) ∧
    ∀ upperdir lowerdir, dockerMountOpts upperdir lowerdir =
      "ro,lowerdir=" ++ upperdir ++ ":" ++ lowerdir := by
  exact mount_opts_upperdir_position
    (rfl : List.lookup "sha256:aaa" s2sdb = some 42)
    (show keysHaveIds s2sdb ["sha256:bbb", "sha256:ccc"] [17, 3] from
      ⟨rfl, rfl, trivial⟩)
    (by simp)

set_option maxRecDepth 4000 in
/-- Counterexample for C2: in the containerd backend, on the S2 chain the
first path after the equal sign of the emitted option string is the first
lower layer snapshots/17/fs, not the upperdir snapshots/42/fs, refuting
the claim for the containerd MountContainer. -/
theorem mount_opts_counterexample :
    MountContainerOptsFromKeys s2sdb s2root ["sha256:aaa", "sha256:bbb", "sha256:ccc"] =
      .ok ("ro,lowerdir=" ++ fsPath s2root 17 ++ ":" ++ fsPath s2root 3 ++ ":" ++
        fsPath s2root 42) ∧
    firstPathAfterEq ("ro,lowerdir=" ++ fsPath s2root 17 ++ ":" ++ fsPath s2root 3 ++ ":" ++
      fsPath s2root 42) = fsPath s2root 17 ∧
    fsPath s2root 17 ≠ fsPath s2root 42 := by
  refine ⟨rfl, ?_, by decide⟩
  decide
/-! ## Label filter, hostname, ports, runtime state, drift timestamps -/

/-- C3 (amended): with a non-empty label filter the code EXCLUDES a
container exactly when some filter pair matches one of its labels:
IgnoreContainer returns true iff some filter pair's key is present among
the container labels with an equal value, and ExportAllContainers
processes a non-support container iff no filter pair matches. A container
missing every filtered key is therefore included, and a container
matching the whole filter is excluded — the opposite polarity of the
claim. -/
theorem label_filter_excludes_matches (labels filter : List (String × String)) :
    (IgnoreContainer labels filter = true ↔
      ∃ kv ∈ filter, List.lookup kv.fst labels = some kv.snd) ∧
    ∀ exportSupport : Bool,
      (exportAllIncluded false exportSupport labels filter = true ↔
        ∀ kv ∈ filter, List.lookup kv.fst labels ≠ some kv.snd) := by
  have hmain : IgnoreContainer labels filter = true ↔
      ∃ kv ∈ filter, List.lookup kv.fst labels = some kv.snd := by
    unfold IgnoreContainer
    rw [List.any_eq_true]
    constructor
    · rintro ⟨kv, hkv, hmatch⟩
      refine ⟨kv, hkv, ?_⟩
      cases hl : List.lookup kv.fst labels with
      | none => rw [hl] at hmatch; simp at hmatch
      | some v =>
        rw [hl] at hmatch
        simp only [decide_eq_true_eq] at hmatch
        rw [hmatch]
    · rintro ⟨kv, hkv, hl⟩
      exact ⟨kv, hkv, by rw [hl]; simp⟩
  refine ⟨hmain, fun es => ?_⟩
  have hincl : exportAllIncluded false es labels filter =
      !IgnoreContainer labels filter := by
    simp [exportAllIncluded]
  rw [hincl, Bool.not_eq_true']
  rw [show (IgnoreContainer labels filter = false) ↔
      ¬ (IgnoreContainer labels filter = true) from by simp]
  rw [hmain]
  push_neg
  rfl

/-- Counterexample for C3: a container whose labels match every pair of a
non-empty filter: the claim demands inclusion (IgnoreContainer false); the
code returns true and ExportAllContainers skips the container. -/
theorem label_filter_counterexample :
    IgnoreContainer [("app", "web")] [("app", "web")] = true ∧
    allFilterPairsMatch [("app", "web")] [("app", "web")] = true ∧
    exportAllIncluded false true [("app", "web")] [("app", "web")] = false := by
  decide

/-- C6 (amended): the containerd hostname derivation consults only the
OCI spec: spec.hostname when non-empty, otherwise the first HOSTNAME=
environment entry, and empty without a spec; the io.kubernetes.pod.name
label is never consulted, and the code agrees with the spec order exactly
when that label is absent or empty. -/
theorem hostname_derivation (labels : List (String × String))
    (specHostname : String) (env : List String) :
    (specHostname ≠ "" → deriveHostname true specHostname env = specHostname) ∧
    (deriveHostname true "" env =
      (match env.find? (fun kv => strStartsWith kv "HOSTNAME=") with
       | some kv => strTrim ((strSplitOn kv '=').getD 1 "")
       | none => "")) ∧
    deriveHostname false specHostname env = "" ∧
    ((List.lookup "io.kubernetes.pod.name" labels).getD "" = "" →
      specClaimHostname labels specHostname env = deriveHostname true specHostname env) := by
  refine ⟨fun h => by simp [deriveHostname, h], rfl, rfl, fun h => ?_⟩
  unfold specClaimHostname deriveHostname
  rw [h]
  simp

/-- Witness for C6: with spec hostname present the code returns it and,
with no pod-name label, matches the spec-order function. -/
theorem hostname_derivation_witness :
    deriveHostname true "spec-host" ["HOSTNAME=env-host"] = "spec-host" ∧
    specClaimHostname [] "spec-host" ["HOSTNAME=env-host"] =
      deriveHostname true "spec-host" ["HOSTNAME=env-host"] :=
  ⟨(hostname_derivation [] "spec-host" ["HOSTNAME=env-host"]).1 (by decide),
   (hostname_derivation [] "spec-host" ["HOSTNAME=env-host"]).2.2.2 rfl⟩

/-- Counterexample for C6: a container with pod-name label mypod and spec
hostname spec-host: the claim requires mypod; the code (which reads only
the spec) returns spec-host. -/
theorem hostname_counterexample :
    deriveHostname true "spec-host" [] = "spec-host" ∧
    specClaimHostname [("io.kubernetes.pod.name", "mypod")] "spec-host" [] = "mypod" ∧
    ("spec-host" : String) ≠ "mypod" := by
  refine ⟨rfl, rfl, by decide⟩

/-- The ExposedPorts loop reproduces its iteration order. -/
lemma dockerExposedPorts_eq (order : List String) :
    dockerExposedPorts order = order := by
  suffices h : ∀ acc, order.foldl (fun a k => a ++ [k]) acc = acc ++ order by
    simpa [dockerExposedPorts] using h []
  induction order with
  | nil => intro acc; simp
  | cons x xs ih => intro acc; simp [List.foldl_cons, ih]

/-- C7 (amended): the docker ListContainers output is deterministic only
up to the order of each container's ExposedPorts: the loop emits the Go
map iteration order verbatim, so any two runs (any two permutations of
the port key set) agree as multisets but need not be equal lists. -/
theorem exposed_ports_up_to_permutation {keys o1 o2 : List String}
    (h1 : o1.Perm keys) (h2 : o2.Perm keys) :
    (dockerExposedPorts o1).Perm keys ∧
    (dockerExposedPorts o1).Perm (dockerExposedPorts o2) := by
  rw [dockerExposedPorts_eq, dockerExposedPorts_eq]
  exact ⟨h1, h1.trans h2.symm⟩

/-- Witness for C7: two iteration orders of the key set 80/tcp, 443/tcp. -/
theorem exposed_ports_up_to_permutation_witness :
    (dockerExposedPorts ["443/tcp", "80/tcp"]).Perm ["80/tcp", "443/tcp"] ∧
    (dockerExposedPorts ["443/tcp", "80/tcp"]).Perm
      (dockerExposedPorts ["80/tcp", "443/tcp"]) :=
  exposed_ports_up_to_permutation
    (List.Perm.swap "80/tcp" "443/tcp" []) (List.Perm.refl _)

/-- Counterexample for C7: two valid Go map iteration orders of the same
ExposedPorts key set yield different ExposedPorts lists, so two runs of
ListContainers over an unchanged disk need not return equal lists. -/
theorem exposed_ports_counterexample :
    (["443/tcp", "80/tcp"] : List String).Perm ["80/tcp", "443/tcp"] ∧
    dockerExposedPorts ["80/tcp", "443/tcp"] ≠
      dockerExposedPorts ["443/tcp", "80/tcp"] := by
  exact ⟨List.Perm.swap "80/tcp" "443/tcp" [], by decide⟩

/-- C8: over any cgroup.events content parsing to (populated, frozen),
GetTaskStatus returns STOPPED for (0,0), RUNNING for (1,0), PAUSED for
(1,1) and UNKNOWN for every other combination, and GetTaskPID returns the
integer parsed from the first line of cgroup.procs. -/
theorem task_status_and_pid :
    (∀ content p f, ReadCgroupEvents content = (p, f) →
      GetTaskStatus content =
        (if p = 0 ∧ f = 0 then "STOPPED"
         else if p = 1 ∧ f = 0 then "RUNNING"
         else if p = 1 ∧ f = 1 then "PAUSED"
         else "UNKNOWN")) ∧
    (∀ procs pid, goAtoi (firstLine procs) = some pid →
      GetTaskPID (some procs) = pid) := by
  constructor
  · intro content p f h
    unfold GetTaskStatus taskStatusOf
    rw [h]
  · intro procs pid h
    show (match goAtoi (firstLine procs) with
          | none => (-1 : Int)
          | some pid => pid) = pid
    rw [h]

/-- Witness for C8, scenario S3: populated 1, frozen 0 gives RUNNING and
a cgroup.procs starting with 4321 gives PID 4321. -/
theorem task_status_and_pid_witness :
    GetTaskStatus "populated 1\nfrozen 0\n" = "RUNNING" ∧
    GetTaskPID (some "4321\n") = 4321 := by
  constructor
  · have h := task_status_and_pid.1 "populated 1\nfrozen 0\n" 1 0 (by decide)
    simpa using h
  · exact task_status_and_pid.2 "4321\n" 4321 (by decide)

/-- C10: GetTaskPID is total: -1 when cgroup.procs is missing or
unreadable, -1 when the first line does not parse as an integer, and the
parsed first-line integer otherwise. -/
theorem get_task_pid_total :
    GetTaskPID none = -1 ∧
    (∀ content, goAtoi (firstLine content) = none →
      GetTaskPID (some content) = -1) ∧
    (∀ content pid, goAtoi (firstLine content) = some pid →
      GetTaskPID (some content) = pid) := by
  refine ⟨rfl, fun c h => ?_, fun c pid h => ?_⟩ <;>
    · show (match goAtoi (firstLine c) with
            | none => (-1 : Int)
            | some pid => pid) = _
      rw [h]

/-- Witness for C10: a missing file, a non-numeric first line, and a
numeric first line. -/
theorem get_task_pid_total_witness :
    GetTaskPID none = -1 ∧
    GetTaskPID (some "abc\n123") = -1 ∧
    GetTaskPID (some "54321\nxx") = 54321 :=
  ⟨get_task_pid_total.1,
   get_task_pid_total.2.1 "abc\n123" (by decide),
   get_task_pid_total.2.2 "54321\nxx" 54321 (by decide)⟩

/-- C9 (code bug): evaluated at a stat whose access time is (10 s, 1 ns),
modification time (100 s, 5 ns) and change time (200 s, 7 ns), GetFileInfo
records the modified and accessed times faithfully, but FileChanged comes
out as (100 s, 7 ns) — the seconds of mtime paired with the nanoseconds of
ctime — instead of the change time, and FileBirth comes out as the change
time although Linux Stat_t exposes no birth time. -/
theorem drift_timestamps_bug :
    (GetFileInfoTimes ⟨100, 5⟩ ⟨⟨10, 1⟩, ⟨100, 5⟩, ⟨200, 7⟩⟩).fileModified = ⟨100, 5⟩ ∧
    (GetFileInfoTimes ⟨100, 5⟩ ⟨⟨10, 1⟩, ⟨100, 5⟩, ⟨200, 7⟩⟩).fileAccessed = ⟨10, 1⟩ ∧
    (GetFileInfoTimes ⟨100, 5⟩ ⟨⟨10, 1⟩, ⟨100, 5⟩, ⟨200, 7⟩⟩).fileChanged = ⟨100, 7⟩ ∧
    (GetFileInfoTimes ⟨100, 5⟩ ⟨⟨10, 1⟩, ⟨100, 5⟩, ⟨200, 7⟩⟩).fileChanged ≠ ⟨200, 7⟩ ∧
    (GetFileInfoTimes ⟨100, 5⟩ ⟨⟨10, 1⟩, ⟨100, 5⟩, ⟨200, 7⟩⟩).fileBirth = ⟨200, 7⟩ := by
  refine ⟨rfl, rfl, rfl, by decide, rfl⟩

end ContainerExplorer
